import Mathlib

/-!
Verification of the Partner Metrics & Risk-Scoring Pipeline (src/dash.py).

The dashboard script is embedded shallowly: pandas Series arithmetic is
modelled by the type PVal (a float cell that is NaN, plus or minus infinity,
or a rational number), a raw spreadsheet row by the structure Row, and a row
carrying the derived columns by DRow.  Each definition below names the line
of src/dash.py it translates.
-/

namespace Dash

/-- Value of a float cell as produced by pandas Series arithmetic:
NaN, plus infinity, minus infinity, or a finite (rational) number. -/
inductive PVal where
  | nan : PVal
  | posInf : PVal
  | negInf : PVal
  | num : ℚ → PVal
deriving DecidableEq, Repr

/-- Elementwise pandas division of two numeric cells (dash.py lines 16-20):
a missing operand gives NaN, 0/0 gives NaN, x/0 gives a signed infinity,
otherwise the exact quotient. -/
def serDiv (a b : Option ℚ) : PVal :=
  match a, b with
  | some x, some y =>
      if y = 0 then
        if x = 0 then PVal.nan else if 0 < x then PVal.posInf else PVal.negInf
      else PVal.num (x / y)
  | _, _ => PVal.nan

/-- Series.fillna(0) (dash.py lines 17 and 20): replaces NaN by 0 and
leaves every other value, infinities included, unchanged. -/
def fillna0 : PVal → PVal
  | PVal.nan => PVal.num 0
  | v => v

/-- Pandas addition on float cells: NaN is absorbing and opposite
infinities give NaN. -/
def pvAdd : PVal → PVal → PVal
  | PVal.nan, _ => PVal.nan
  | _, PVal.nan => PVal.nan
  | PVal.posInf, PVal.negInf => PVal.nan
  | PVal.negInf, PVal.posInf => PVal.nan
  | PVal.posInf, _ => PVal.posInf
  | _, PVal.posInf => PVal.posInf
  | PVal.negInf, _ => PVal.negInf
  | _, PVal.negInf => PVal.negInf
  | PVal.num x, PVal.num y => PVal.num (x + y)

/-- Division of a float cell by a group size, used for a groupby mean. -/
def pvDivNat (v : PVal) (n : ℕ) : PVal :=
  match v with
  | PVal.nan => PVal.nan
  | PVal.posInf => PVal.posInf
  | PVal.negInf => PVal.negInf
  | PVal.num x => if n = 0 then PVal.nan else PVal.num (x / n)

/-- Mean of a list of float cells none of which is NaN in our use
(groupby mean at dash.py line 120). -/
def pvMean (l : List PVal) : PVal :=
  if l.isEmpty then PVal.nan else pvDivNat (l.foldl pvAdd (PVal.num 0)) l.length

/-- Pandas comparison cell < constant: false on NaN and on plus infinity,
true on minus infinity (dash.py lines 159 and 161). -/
def pvLtc (v : PVal) (c : ℚ) : Bool :=
  match v with
  | PVal.num x => decide (x < c)
  | PVal.negInf => true
  | _ => false

/-- Ordering used by sort_values(ascending=False, na_position=last) on a
float column: plus infinity first, then finite values descending, then
minus infinity, then NaN last. -/
def pvDescLe : PVal → PVal → Bool
  | _, PVal.nan => true
  | PVal.nan, _ => false
  | PVal.posInf, _ => true
  | _, PVal.posInf => false
  | PVal.num x, PVal.num y => decide (y ≤ x)
  | PVal.num _, PVal.negInf => true
  | PVal.negInf, PVal.num _ => false
  | PVal.negInf, PVal.negInf => true

/-- Raw content of the last-contact-date cell: null (NaT after parsing),
a valid calendar date given as a day number, or an unparseable value. -/
inductive DateCell where
  | null : DateCell
  | valid : ℤ → DateCell
  | malformed : DateCell
deriving DecidableEq, Repr

/-- Raw spreadsheet row as read at dash.py line 13.  Every cell is optional
because any spreadsheet cell can be empty (NaN). -/
structure Row where
  nome : Option String
  cidade : Option String
  canal : Option String
  tipo : Option String
  status : Option String
  indicacoes : Option ℚ
  qualificadas : Option ℚ
  fechadas : Option ℚ
  dataContato : DateCell
  nps : Option ℚ
deriving DecidableEq, Repr

/-- Row carrying the derived columns added by load_data (dash.py lines
16-23); riscoChurn models the Risco Churn column, absent (none) until the
risk section assigns it. -/
structure DRow where
  base : Row
  taxaConversao : PVal
  taxaQualificacao : PVal
  diasSemContato : Option ℤ
  riscoChurn : Option Bool
deriving DecidableEq, Repr

/-- pd.to_datetime on one cell with the default errors=raise policy
(dash.py line 22): null passes through as NaT, a valid date parses, an
unparseable value raises. -/
def parseDate : DateCell → Except Unit (Option ℤ)
  | DateCell.null => Except.ok none
  | DateCell.valid d => Except.ok (some d)
  | DateCell.malformed => Except.error ()

/-- The date a cell parses to when parsing does not raise. -/
def cellDate : DateCell → Option ℤ
  | DateCell.valid d => some d
  | _ => none

/-- pd.to_datetime over the whole column: the first unparseable cell makes
the whole conversion raise (dash.py line 22). -/
def parseAll : List Row → Except Unit (List (Row × Option ℤ))
  | [] => Except.ok []
  | r :: t =>
      match parseDate r.dataContato, parseAll t with
      | Except.ok d, Except.ok l => Except.ok ((r, d) :: l)
      | _, _ => Except.error ()

/-- Derived columns of one row (dash.py lines 16-23): the two rates with
fillna(0), and days since contact as today minus the parsed date, missing
when the date is NaT. -/
def deriveRow (today : ℤ) (r : Row) (d : Option ℤ) : DRow :=
  { base := r
    taxaConversao := fillna0 (serDiv r.fechadas r.indicacoes)
    taxaQualificacao := fillna0 (serDiv r.qualificadas r.indicacoes)
    diasSemContato := d.map (fun x => today - x)
    riscoChurn := none }

/-- load_data (dash.py lines 11-28): derives the metric columns; any
exception, in particular a raise from pd.to_datetime, is caught by the
try/except of the whole function, which then returns an empty DataFrame. -/
def load_data (today : ℤ) (rows : List Row) : List DRow :=
  match parseAll rows with
  | Except.ok l => l.map (fun p => deriveRow today p.1 p.2)
  | Except.error _ => []

/-- FilterSpec built by the sidebar (dash.py lines 40-67): for each of the
four filterable columns, none means the column is omitted from the spec and
some vs is a present constraint with accepted-value list vs. -/
structure FilterSpec where
  cidade : Option (List String)
  canal : Option (List String)
  tipo : Option (List String)
  status : Option (List String)
deriving DecidableEq, Repr

/-- One pass of the filter loop (dash.py lines 71-73): the truthiness test
on valores skips an absent constraint and also an empty accepted-value
list; otherwise the rows whose cell is a member of the list are kept (a
missing cell is never a member, as with Series.isin). -/
def applyOne (sel : Option (List String)) (get : DRow → Option String)
    (l : List DRow) : List DRow :=
  match sel with
  | none => l
  | some [] => l
  | some vs =>
      l.filter (fun r =>
        match get r with
        | some v => vs.contains v
        | none => false)

/-- The membership predicate an applyOne pass keeps rows by. -/
def selPred (sel : Option (List String)) (get : DRow → Option String)
    (r : DRow) : Bool :=
  match sel with
  | none => true
  | some [] => true
  | some vs =>
      match get r with
      | some v => vs.contains v
      | none => false

/-- The filter loop over the four sidebar columns in dict insertion order
Cidade, Canal, Tipo, Status (dash.py lines 70-73). -/
def applyFiltros (s : FilterSpec) (l : List DRow) : List DRow :=
  applyOne s.status (fun r => r.base.status)
    (applyOne s.tipo (fun r => r.base.tipo)
      (applyOne s.canal (fun r => r.base.canal)
        (applyOne s.cidade (fun r => r.base.cidade) l)))

/-- Conjunction of the four per-column membership predicates. -/
def bigPred (s : FilterSpec) (r : DRow) : Bool :=
  selPred s.status (fun x => x.base.status) r &&
    (selPred s.tipo (fun x => x.base.tipo) r &&
      (selPred s.canal (fun x => x.base.canal) r &&
        selPred s.cidade (fun x => x.base.cidade) r))

/-- Replace a present constraint with an empty accepted-value list by an
omitted constraint. -/
def normEntry : Option (List String) → Option (List String)
  | some [] => none
  | v => v

/-- FilterSpec with every empty accepted-value set removed. -/
def normalizeSpec (s : FilterSpec) : FilterSpec :=
  { cidade := normEntry s.cidade
    canal := normEntry s.canal
    tipo := normEntry s.tipo
    status := normEntry s.status }

/-- The four columns the churn-risk section requires (dash.py line 156). -/
def riskRequired : List String :=
  ["Status da parceria", "NPS da última interação", "Dias sem contato",
   "Taxa Conversão"]

/-- The churn-risk rule (dash.py lines 157-162): inactive status, or NPS
below 30, or more than 60 days without contact, or conversion rate below
0.2; every comparison against a missing cell is false, as in pandas. -/
def riscoFlag (r : DRow) : Bool :=
  (r.base.status == some ("Inativo")) ||
  (match r.base.nps with
   | some v => decide (v < 30)
   | none => false) ||
  (match r.diasSemContato with
   | some d => decide (60 < d)
   | none => false) ||
  pvLtc r.taxaConversao (1 / 5)

/-- Assignment of the Risco Churn column to one row (dash.py line 157). -/
def addRisk (r : DRow) : DRow :=
  { r with riscoChurn := some (riscoFlag r) }

/-- Forget the Risco Churn column of a row. -/
def stripRisco (r : DRow) : DRow :=
  { r with riscoChurn := none }

/-- Descending order on days without contact with missing values last,
as sort_values(ascending=False) uses at dash.py line 164. -/
def optDiasDescLe : Option ℤ → Option ℤ → Bool
  | _, none => true
  | none, some _ => false
  | some a, some b => decide (b ≤ a)

/-- Comparison of two rows by days without contact, descending. -/
def diasDescLe (a b : DRow) : Prop :=
  optDiasDescLe a.diasSemContato b.diasSemContato = true

instance : DecidableRel diasDescLe := fun a b =>
  inferInstanceAs (Decidable (optDiasDescLe a.diasSemContato b.diasSemContato = true))

/-- The churn-risk section (dash.py lines 156-191): if any of the four
required columns is absent from the schema (the column-name list cols) the
section refuses with an error message; otherwise every row of the filtered
view gains the Risco Churn column, and the flagged rows, sorted by days
without contact descending, are reported together with their count. -/
def riscoSection (cols : List String) (filtro : List DRow) :
    Except Unit (List DRow × ℕ) :=
  if riskRequired.all (fun c => decide (c ∈ cols)) then
    Except.ok
      (let flagged := (filtro.map addRisk).filter (fun r => r.riscoChurn == some true)
       let sorted := List.insertionSort diasDescLe flagged
       (sorted, sorted.length))
  else Except.error ()

/-- The two script-level DataFrames: df loaded once and the filtered view
filtro, a copy of df (dash.py line 70). -/
structure ScriptState where
  df : List DRow
  filtro : List DRow
deriving Repr

/-- Effect of the churn-risk section on the script state: when the four
required columns are present, the filtered view (a copy, dash.py line 70)
gains the Risco Churn column; df is never touched. -/
def riscoStep (cols : List String) (s : ScriptState) : ScriptState :=
  if riskRequired.all (fun c => decide (c ∈ cols)) then
    { s with filtro := s.filtro.map addRisk }
  else s

/-- One output row of the channel aggregation: channel name, mean
conversion rate and partner count. -/
abbrev CanalRow := String × PVal × ℕ

/-- Comparison of two aggregation rows by mean conversion rate,
descending. -/
def descMeanLe (a b : CanalRow) : Prop :=
  pvDescLe a.2.1 b.2.1 = true

instance : DecidableRel descMeanLe := fun a b =>
  inferInstanceAs (Decidable (pvDescLe a.2.1 b.2.1 = true))

/-- Ascending order on the group keys, as groupby(sort=True) produces. -/
def strAscLe (a b : String) : Prop := ¬ b < a

instance : DecidableRel strAscLe := fun a b =>
  inferInstanceAs (Decidable (¬ b < a))

/-- The group keys of the groupby at dash.py line 119: the distinct
non-missing channel values, in ascending order as groupby(sort=True)
produces them; rows with a missing channel belong to no group. -/
def canalKeys (rows : List DRow) : List String :=
  List.insertionSort strAscLe ((rows.filterMap (fun r => r.base.canal)).dedup)

/-- One aggregation row for a channel (dash.py lines 119-125): the mean of
Taxa Conversão over the group and pandas count of the partner-name column,
which counts only the non-missing names of the group. -/
def canalEntry (rows : List DRow) (k : String) : CanalRow :=
  (k,
   pvMean ((rows.filter (fun r => r.base.canal == some k)).map (fun r => r.taxaConversao)),
   (rows.filter (fun r => r.base.canal == some k)).countP (fun r => r.base.nome.isSome))

/-- canal_conv (dash.py lines 119-125): the per-channel aggregation rows
sorted by mean conversion rate descending. -/
def canalConv (rows : List DRow) : List CanalRow :=
  List.insertionSort descMeanLe ((canalKeys rows).map (canalEntry rows))

/-- melhor_canal (dash.py line 140): the first row of canal_conv. -/
def melhor_canal (rows : List DRow) : Option CanalRow :=
  (canalConv rows).head?

/-- The Canal de Aquisição entry of the perfil_ideal table (dash.py line
204): the channel of the melhor_canal value computed at line 140, reused
rather than recomputed. -/
def perfil_canal (rows : List DRow) : Option String :=
  (melhor_canal rows).map (fun e => e.1)

/-- Sum of the partner counts over the aggregation rows. -/
def sumCounts (l : List CanalRow) : ℕ :=
  (l.map (fun e => e.2.2)).sum

/-- Comparison of two rows by conversion rate, descending. -/
def taxaDescLe (a b : DRow) : Prop :=
  pvDescLe a.taxaConversao b.taxaConversao = true

instance : DecidableRel taxaDescLe := fun a b =>
  inferInstanceAs (Decidable (pvDescLe a.taxaConversao b.taxaConversao = true))

/-- top_parceiros (dash.py line 97): sort by conversion rate descending and
keep the first ten rows.  The script calls sort_values with the default
kind=quicksort, whose tie order pandas does not guarantee; this embedding
uses a stable insertion sort, so tie-order properties of the embedding are
not properties of the script. -/
def top_parceiros (filtro : List DRow) : List DRow :=
  (List.insertionSort taxaDescLe filtro).take 10

/-- A sample raw row with complete, well-formed cells. -/
def rowA : Row :=
  { nome := some ("Parceiro A")
    cidade := some ("Florianopolis")
    canal := some ("Indicacao")
    tipo := some ("Imobiliaria")
    status := some ("Ativo")
    indicacoes := some 10
    qualificadas := some 5
    fechadas := some 5
    dataContato := DateCell.valid 0
    nps := some 80 }

/-- The sample row with its derived columns. -/
def drA : DRow := deriveRow 0 rowA (some 0)

/-- A FilterSpec that constrains the present column Cidade with an empty
accepted-value set and omits the other columns. -/
def specEmptyCidade : FilterSpec :=
  { cidade := some [], canal := none, tipo := none, status := none }

/-- A row with zero referrals received but one closed referral. -/
def rowZeroDen : Row :=
  { rowA with indicacoes := some 0, fechadas := some 1 }

/-- A row whose last-contact cell is unparseable. -/
def rowBadDate : Row :=
  { rowA with nome := some ("Parceiro B"), dataContato := DateCell.malformed }

/-- A row whose last-contact cell is null. -/
def rowNullDate : Row :=
  { rowA with nome := some ("Parceiro C"), dataContato := DateCell.null }

/-- A derived record with Inactive status but excellent numbers everywhere
else: conversion rate 0.9, NPS 90, one day since contact. -/
def rInactive : DRow :=
  { base := { rowA with status := some ("Inativo"), nps := some 90 }
    taxaConversao := PVal.num (9 / 10)
    taxaQualificacao := PVal.num (9 / 10)
    diasSemContato := some 1
    riscoChurn := none }

/-- The record rInactive with its status set back to active; none of the
other three churn criteria applies to it. -/
def rInactiveOtherwise : DRow :=
  { rInactive with base := { rInactive.base with status := some ("Ativo") } }

/-- A schema missing the Dias sem contato column. -/
def colsMissing : List String :=
  ["Status da parceria", "NPS da última interação", "Taxa Conversão"]

/-- A row with a defined acquisition channel but a missing partner name. -/
def rowNoName : Row :=
  { rowA with nome := none }

/-- The no-name row with its derived columns. -/
def drNoName : DRow := deriveRow 0 rowNoName (some 0)

end Dash

namespace Dash

theorem applyOne_eq_filter (sel : Option (List String)) (get : DRow → Option String)
    (l : List DRow) : applyOne sel get l = l.filter (selPred sel get) := by
  match sel with
  | none =>
      have h : selPred none get = fun _ => true := rfl
      simp [applyOne, h]
  | some [] =>
      have h : selPred (some []) get = fun _ => true := rfl
      simp [applyOne, h]
  | some (v :: vs) => rfl

theorem applyFiltros_eq_filter (s : FilterSpec) (l : List DRow) :
    applyFiltros s l = l.filter (bigPred s) := by
  simp only [applyFiltros, applyOne_eq_filter, List.filter_filter]
  rfl

theorem applyOne_norm (sel : Option (List String)) (get : DRow → Option String)
    (l : List DRow) : applyOne (normEntry sel) get l = applyOne sel get l := by
  match sel with
  | none => rfl
  | some [] => rfl
  | some (v :: vs) => rfl

/-- C8: the Filter Engine is idempotent: applying the same FilterSpec twice
yields the same result as applying it once. -/
theorem C8_filter_idempotent (s : FilterSpec) (l : List DRow) :
    applyFiltros s (applyFiltros s l) = applyFiltros s l := by
  rw [applyFiltros_eq_filter, applyFiltros_eq_filter, List.filter_filter]
  simp [Bool.and_self]

/-- C3 counterexample: a FilterSpec whose Cidade constraint is present with
an empty accepted-value set does not return an empty result on a one-row
dataset; the truthiness test at dash.py line 72 skips the empty selection,
so the whole row survives. -/
theorem C3_empty_set_counterexample :
    applyFiltros specEmptyCidade [drA] = [drA] ∧ ([drA] : List DRow) ≠ [] := by
  exact ⟨rfl, by simp⟩

/-- C3 amended: the Filter Engine collapses the distinction between a
present constraint with an empty accepted-value set and an omitted
constraint: every FilterSpec filters exactly as the spec obtained by
deleting its empty accepted-value sets, so an empty set passes everything
instead of yielding an empty result. -/
theorem C3_empty_set_collapsed (s : FilterSpec) (l : List DRow) :
    applyFiltros s l = applyFiltros (normalizeSpec s) l := by
  simp [applyFiltros, normalizeSpec, applyOne_norm]

theorem parseAll_ok_mem {rows : List Row} {l : List (Row × Option ℤ)}
    (h : parseAll rows = Except.ok l) {p : Row × Option ℤ} (hp : p ∈ l) :
    p.1 ∈ rows ∧ parseDate p.1.dataContato = Except.ok p.2 := by
  induction rows generalizing l with
  | nil =>
      simp only [parseAll] at h
      cases h
      cases hp
  | cons r t ih =>
      unfold parseAll at h
      cases hd : parseDate r.dataContato with
      | error e =>
          rw [hd] at h
          cases hpt : parseAll t <;> rw [hpt] at h <;> cases h
      | ok d =>
          rw [hd] at h
          cases hpt : parseAll t with
          | error e => rw [hpt] at h; cases h
          | ok lt =>
              rw [hpt] at h
              cases h
              rcases List.mem_cons.mp hp with rfl | hp2
              · exact ⟨List.mem_cons_self _ _, hd⟩
              · have hres := ih hpt hp2
                exact ⟨List.mem_cons_of_mem _ hres.1, hres.2⟩

theorem mem_load_data {today : ℤ} {rows : List Row} {dr : DRow}
    (h : dr ∈ load_data today rows) :
    ∃ r, r ∈ rows ∧ ∃ d, parseDate r.dataContato = Except.ok d ∧
      dr = deriveRow today r d := by
  unfold load_data at h
  cases hp : parseAll rows with
  | error e => rw [hp] at h; cases h
  | ok l =>
      rw [hp] at h
      rcases List.mem_map.mp h with ⟨p, hpl, rfl⟩
      have hres := parseAll_ok_mem hp hpl
      exact ⟨p.1, hres.1, p.2, hres.2, rfl⟩

theorem parseAll_ok_of_wellformed {rows : List Row}
    (h : ∀ r ∈ rows, r.dataContato ≠ DateCell.malformed) :
    parseAll rows = Except.ok (rows.map (fun r => (r, cellDate r.dataContato))) := by
  induction rows with
  | nil => rfl
  | cons r t ih =>
      have hr : parseDate r.dataContato = Except.ok (cellDate r.dataContato) := by
        cases hc : r.dataContato with
        | null => rfl
        | valid d => rfl
        | malformed => exact absurd hc (h r (List.mem_cons_self _ _))
      unfold parseAll
      rw [hr, ih (fun x hx => h x (List.mem_cons_of_mem _ hx))]
      rfl

theorem parseAll_error_of_malformed {rows : List Row}
    (h : ∃ r ∈ rows, r.dataContato = DateCell.malformed) :
    parseAll rows = Except.error () := by
  induction rows with
  | nil => rcases h with ⟨r, hr, _⟩; cases hr
  | cons a t ih =>
      rcases h with ⟨r, hr, hm⟩
      rcases List.mem_cons.mp hr with rfl | hrt
      · unfold parseAll
        have hpd : parseDate r.dataContato = Except.error () := by rw [hm]; rfl
        rw [hpd]
      · unfold parseAll
        rw [ih ⟨r, hrt, hm⟩]
        cases hd : parseDate a.dataContato <;> rfl

/-- C1 counterexample: a record with referrals received = 0 but referrals
closed = 1 gets conversion rate plus infinity, not 0, because fillna(0)
replaces only the NaN of 0/0 and leaves the infinity of 1/0. -/
theorem C1_zero_denominator_counterexample :
    rowZeroDen.indicacoes = some 0 ∧
    (load_data 0 [rowZeroDen]).map (fun dr => dr.taxaConversao) = [PVal.posInf] ∧
    PVal.posInf ≠ PVal.num 0 := by
  refine ⟨rfl, ?_, by decide⟩
  decide

/-- C1 amended: for every loaded record with referrals received = 0, a rate
whose numerator is 0 (or a missing numerator) resolves to 0, because the
0/0 NaN is filled with 0; but a rate whose numerator is positive resolves
to plus infinity (negative to minus infinity), because fillna(0) does not
replace infinities. -/
theorem C1_zero_denominator_amended (today : ℤ) (rows : List Row) (dr : DRow)
    (hmem : dr ∈ load_data today rows) (h0 : dr.base.indicacoes = some 0) :
    (∀ c : ℚ, dr.base.fechadas = some c →
      dr.taxaConversao =
        if c = 0 then PVal.num 0 else if 0 < c then PVal.posInf else PVal.negInf) ∧
    (∀ c : ℚ, dr.base.qualificadas = some c →
      dr.taxaQualificacao =
        if c = 0 then PVal.num 0 else if 0 < c then PVal.posInf else PVal.negInf) ∧
    (dr.base.fechadas = none → dr.taxaConversao = PVal.num 0) ∧
    (dr.base.qualificadas = none → dr.taxaQualificacao = PVal.num 0) := by
  rcases mem_load_data hmem with ⟨r, _, d, _, rfl⟩
  have hb : (deriveRow today r d).base = r := rfl
  rw [hb] at h0
  refine ⟨?_, ?_, ?_, ?_⟩
  · intro c hc
    rw [hb] at hc
    show fillna0 (serDiv r.fechadas r.indicacoes) = _
    rw [hc, h0]
    simp only [serDiv, if_pos rfl]
    split_ifs <;> rfl
  · intro c hc
    rw [hb] at hc
    show fillna0 (serDiv r.qualificadas r.indicacoes) = _
    rw [hc, h0]
    simp only [serDiv, if_pos rfl]
    split_ifs <;> rfl
  · intro hc
    rw [hb] at hc
    show fillna0 (serDiv r.fechadas r.indicacoes) = _
    rw [hc, h0]
    rfl
  · intro hc
    rw [hb] at hc
    show fillna0 (serDiv r.qualificadas r.indicacoes) = _
    rw [hc, h0]
    rfl

/-- C1 witness: the amended statement applied to the concrete loaded record
with received = 0 and closed = 1 yields conversion rate plus infinity. -/
theorem C1_zero_denominator_witness :
    (deriveRow 0 rowZeroDen (some 0)).taxaConversao = PVal.posInf := by
  have h := (C1_zero_denominator_amended 0 [rowZeroDen]
    (deriveRow 0 rowZeroDen (some 0)) (by decide) rfl).1 1 rfl
  rw [if_neg (by norm_num), if_pos (by norm_num)] at h
  exact h

/-- C2 counterexample: a dataset of one well-formed row and one row with an
unparseable last-contact date loads as the empty dataset, while the
well-formed row alone loads fine: the single malformed date aborts the
whole batch instead of being recovered per-record. -/
theorem C2_malformed_date_counterexample :
    load_data 0 [rowA, rowBadDate] = [] ∧ load_data 0 [rowA] ≠ [] := by
  exact ⟨rfl, by decide⟩

/-- C2 amended: an unparseable last-contact date makes pd.to_datetime
raise, the batch-level handler of load_data catches it and returns the
empty dataset, so no record of the batch is processed; only a null date is
recovered per-record, its days_since_contact left undefined while every
record of the batch is processed. -/
theorem C2_malformed_date_amended (today : ℤ) (rows : List Row) :
    ((∃ r ∈ rows, r.dataContato = DateCell.malformed) →
      load_data today rows = []) ∧
    ((∀ r ∈ rows, r.dataContato ≠ DateCell.malformed) →
      load_data today rows =
        rows.map (fun r => deriveRow today r (cellDate r.dataContato)) ∧
      ∀ r ∈ rows, r.dataContato = DateCell.null →
        (deriveRow today r (cellDate r.dataContato)).diasSemContato = none) := by
  constructor
  · intro h
    unfold load_data
    rw [parseAll_error_of_malformed h]
  · intro h
    constructor
    · unfold load_data
      rw [parseAll_ok_of_wellformed h]
      show List.map (fun p => deriveRow today p.1 p.2)
        (List.map (fun r => (r, cellDate r.dataContato)) rows) = _
      rw [List.map_map]
      rfl
    · intro r _ hnull
      simp [deriveRow, hnull, cellDate]

/-- C2 witness: the amended statement applied to concrete batches: one with
a malformed date loads empty; one with a null date is fully processed with
that one record lacking days_since_contact. -/
theorem C2_malformed_date_witness :
    load_data 0 [rowA, rowBadDate] = [] ∧
    load_data 0 [rowA, rowNullDate] =
      [deriveRow 0 rowA (some 0), deriveRow 0 rowNullDate none] ∧
    (deriveRow 0 rowNullDate (cellDate rowNullDate.dataContato)).diasSemContato = none := by
  refine ⟨?_, ?_, ?_⟩
  · exact (C2_malformed_date_amended 0 [rowA, rowBadDate]).1
      ⟨rowBadDate, by simp, rfl⟩
  · have h := ((C2_malformed_date_amended 0 [rowA, rowNullDate]).2 (by decide)).1
    simpa [cellDate, rowA, rowNullDate] using h
  · exact ((C2_malformed_date_amended 0 [rowA, rowNullDate]).2 (by decide)).2
      rowNullDate (by simp) rfl

/-- C4: the Risk Classifier is a logical OR of its four criteria, so
partnership status Inativo alone flags a record, whatever the values of
conversion rate, NPS and days since contact. -/
theorem C4_inactive_alone_flags (r : DRow)
    (h : r.base.status = some ("Inativo")) : riscoFlag r = true := by
  unfold riscoFlag
  rw [h]
  simp

/-- C4 witness: the concrete record with Inactive status, conversion rate
0.9, NPS 90 and one day since contact is flagged, while the same record
with active status is not, so clause 1 alone triggered the flag. -/
theorem C4_inactive_alone_flags_witness :
    riscoFlag rInactive = true ∧
    rInactive.taxaConversao = PVal.num (9 / 10) ∧
    rInactive.base.nps = some 90 ∧
    rInactive.diasSemContato = some 1 ∧
    riscoFlag rInactiveOtherwise = false := by
  refine ⟨C4_inactive_alone_flags rInactive rfl, rfl, rfl, rfl, ?_⟩
  norm_num [riscoFlag, rInactiveOtherwise, rInactive, rowA, pvLtc]
  decide

/-- C5: the Risk Classifier refuses with an error when any of its four
required columns is absent from the schema, whatever the records are, and
does not refuse when all four are present. -/
theorem C5_schema_guard (cols : List String) (filtro : List DRow) :
    ((∃ c ∈ riskRequired, c ∉ cols) → riscoSection cols filtro = Except.error ()) ∧
    ((∀ c ∈ riskRequired, c ∈ cols) → ∃ out, riscoSection cols filtro = Except.ok out) := by
  constructor
  · rintro ⟨c, hc, hnc⟩
    unfold riscoSection
    rw [if_neg]
    intro hall
    rw [List.all_eq_true] at hall
    exact hnc (of_decide_eq_true (hall c hc))
  · intro h
    unfold riscoSection
    rw [if_pos]
    · exact ⟨_, rfl⟩
    · rw [List.all_eq_true]
      intro c hc
      exact decide_eq_true (h c hc)

/-- C5 witness: with the Dias sem contato column missing the section
refuses on a dataset whose only record would not even have been flagged;
with the full schema it runs. -/
theorem C5_schema_guard_witness :
    riscoSection colsMissing [drA] = Except.error () ∧
    riscoFlag drA = false ∧
    (∃ out, riscoSection riskRequired [drA] = Except.ok out) := by
  refine ⟨?_, ?_, ?_⟩
  · exact (C5_schema_guard colsMissing [drA]).1
      ⟨("Dias sem contato"), by decide, by decide⟩
  · norm_num [riscoFlag, drA, deriveRow, rowA, serDiv, fillna0, pvLtc]
    decide
  · exact (C5_schema_guard riskRequired [drA]).2 (fun c hc => hc)

/-- C9: the churn-risk step only adds the Risco Churn column: the loaded
DataFrame df is left entirely unchanged (the filtered view is a copy), the
filtered rows keep every pre-existing field, and no row of df ever gains a
Risco Churn value. -/
theorem C9_risk_only_adds_flag (cols : List String) (today : ℤ) (rows : List Row)
    (spec : FilterSpec) :
    (riscoStep cols ⟨load_data today rows, applyFiltros spec (load_data today rows)⟩).df
      = load_data today rows ∧
    (riscoStep cols ⟨load_data today rows, applyFiltros spec (load_data today rows)⟩).filtro.map
        stripRisco
      = (applyFiltros spec (load_data today rows)).map stripRisco ∧
    ∀ r ∈ (riscoStep cols ⟨load_data today rows,
        applyFiltros spec (load_data today rows)⟩).df,
      r.riscoChurn = none := by
  refine ⟨?_, ?_, ?_⟩
  · unfold riscoStep
    split <;> rfl
  · unfold riscoStep
    split
    · show (List.map addRisk _).map stripRisco = _
      rw [List.map_map]
      rfl
    · rfl
  · intro r hr
    have hdf : (riscoStep cols ⟨load_data today rows,
        applyFiltros spec (load_data today rows)⟩).df = load_data today rows := by
      unfold riscoStep
      split <;> rfl
    rw [hdf] at hr
    rcases mem_load_data hr with ⟨r0, _, d, _, rfl⟩
    rfl

/-- C9 witness: on a concrete one-row dataset the step leaves df unchanged
and the loaded record carries no Risco Churn value. -/
theorem C9_risk_only_adds_flag_witness :
    (riscoStep riskRequired ⟨load_data 0 [rowA],
        applyFiltros specEmptyCidade (load_data 0 [rowA])⟩).df = load_data 0 [rowA] ∧
    drA.riscoChurn = none := by
  refine ⟨(C9_risk_only_adds_flag riskRequired 0 [rowA] specEmptyCidade).1, ?_⟩
  apply (C9_risk_only_adds_flag riskRequired 0 [rowA] specEmptyCidade).2.2 drA
  rw [(C9_risk_only_adds_flag riskRequired 0 [rowA] specEmptyCidade).1]
  show drA ∈ [drA]
  exact List.mem_singleton.mpr rfl

theorem pvDescLe_refl (x : PVal) : pvDescLe x x = true := by
  cases x <;> simp [pvDescLe]

theorem pvDescLe_total (x y : PVal) : pvDescLe x y = true ∨ pvDescLe y x = true := by
  cases x <;> cases y <;> simp [pvDescLe]
  exact le_total _ _

theorem pvDescLe_trans (x y z : PVal) (hxy : pvDescLe x y = true)
    (hyz : pvDescLe y z = true) : pvDescLe x z = true := by
  cases x <;> cases y <;> cases z <;> simp_all [pvDescLe]
  linarith

instance : IsTotal CanalRow descMeanLe :=
  ⟨fun a b => pvDescLe_total a.2.1 b.2.1⟩

instance : IsTrans CanalRow descMeanLe :=
  ⟨fun a b c => pvDescLe_trans a.2.1 b.2.1 c.2.1⟩

/-- C7: canal_conv is ordered by descending mean conversion rate, the best
channel shown by the channel section is its first row, and the channel of
the ideal-profile table is that same value passed along, so the two
displayed values always agree; the first row's mean is greatest among all
groups. -/
theorem C7_best_channel_consistent (rows : List DRow) :
    List.Sorted descMeanLe (canalConv rows) ∧
    perfil_canal rows = ((canalConv rows).head?).map (fun e => e.1) ∧
    (∀ m, melhor_canal rows = some m → ∀ e ∈ canalConv rows, descMeanLe m e) := by
  have hs : List.Sorted descMeanLe (canalConv rows) := by
    unfold canalConv
    exact List.sorted_insertionSort descMeanLe _
  refine ⟨hs, rfl, ?_⟩
  intro m hm e he
  unfold melhor_canal at hm
  cases hcc : canalConv rows with
  | nil => rw [hcc] at hm; cases hm
  | cons a t =>
      rw [hcc] at hm he
      rw [hcc] at hs
      have ham : a = m := Option.some.inj hm
      subst ham
      rcases List.mem_cons.mp he with rfl | he2
      · exact pvDescLe_refl e.2.1
      · exact (List.sorted_cons.mp hs).1 e he2

theorem sum_map_add {α : Type} (f g : α → ℕ) (l : List α) :
    (l.map (fun a => f a + g a)).sum = (l.map f).sum + (l.map g).sum := by
  induction l with
  | nil => rfl
  | cons a t ih =>
      simp only [List.map_cons, List.sum_cons, ih]
      omega

theorem sum_map_ite_eq (k0 : String) (a : ℕ) :
    ∀ keys : List String, k0 ∈ keys → keys.Nodup →
      (keys.map (fun k => if k0 = k then a else 0)).sum = a := by
  intro keys
  induction keys with
  | nil => intro hk _; cases hk
  | cons k t ih =>
      intro hk hnd
      rcases List.mem_cons.mp hk with rfl | hkt
      · have hnot : k0 ∉ t := (List.nodup_cons.mp hnd).1
        have hz : ∀ x ∈ t.map (fun k => if k0 = k then a else 0), x = 0 := by
          intro x hx
          rcases List.mem_map.mp hx with ⟨k2, hk2, rfl⟩
          exact if_neg (fun he => hnot (by rw [he]; exact hk2))
        simp [List.sum_cons, List.sum_eq_zero hz]
      · have hne : k0 ≠ k := fun he => (List.nodup_cons.mp hnd).1 (by rw [← he]; exact hkt)
        simp [List.sum_cons, if_neg hne, ih hkt (List.nodup_cons.mp hnd).2]

theorem sum_countP_by_keys (p : DRow → Bool) (keys : List String) (hnd : keys.Nodup) :
    ∀ rows : List DRow, (∀ r ∈ rows, ∀ k, r.base.canal = some k → k ∈ keys) →
      (keys.map (fun k =>
        List.countP (fun r => p r && (r.base.canal == some k)) rows)).sum
        = List.countP (fun r => p r && r.base.canal.isSome) rows := by
  intro rows
  induction rows with
  | nil => intro _; simp
  | cons r t ih =>
      intro hcov
      have hsplit :
          (keys.map (fun k =>
            List.countP (fun x => p x && (x.base.canal == some k)) (r :: t))).sum
            = (keys.map (fun k =>
                List.countP (fun x => p x && (x.base.canal == some k)) t)).sum
              + (keys.map (fun k =>
                  if (p r && (r.base.canal == some k)) then 1 else 0)).sum := by
        rw [← sum_map_add]
        congr 1
        apply List.map_congr_left
        intro k _
        rw [List.countP_cons]
      rw [hsplit, ih (fun x hx => hcov x (List.mem_cons_of_mem _ hx)), List.countP_cons]
      congr 1
      cases hc : r.base.canal with
      | none =>
          have hb : ∀ k : String, ((none : Option String) == some k) = false :=
            fun _ => rfl
          have hz : ∀ x ∈ keys.map (fun k : String =>
              if (p r && ((none : Option String) == some k)) = true then 1 else 0),
              x = 0 := by
            intro x hx
            rcases List.mem_map.mp hx with ⟨k2, _, rfl⟩
            simp [hb]
          rw [List.sum_eq_zero hz]
          simp
      | some k0 =>
          have hk0 : k0 ∈ keys := hcov r (List.mem_cons_self _ _) k0 hc
          cases hp : p r with
          | false => simp
          | true =>
              have hb2 : ∀ k : String, ((some k0 : Option String) == some k) = (k0 == k) :=
                fun _ => rfl
              have hfun : (fun k : String =>
                  if (true && ((some k0 : Option String) == some k)) = true then 1 else 0)
                  = fun k : String => if k0 = k then 1 else 0 := by
                funext k
                simp only [Bool.true_and, hb2]
                by_cases hkk : k0 = k
                · subst hkk
                  simp
                · simp [hkk]
              rw [hfun, sum_map_ite_eq k0 1 keys hk0 hnd]
              simp

theorem canalKeys_nodup (rows : List DRow) : (canalKeys rows).Nodup := by
  unfold canalKeys
  exact (List.perm_insertionSort strAscLe _).nodup_iff.mpr (List.nodup_dedup _)

theorem mem_canalKeys {rows : List DRow} {r : DRow} (hr : r ∈ rows) {k : String}
    (hk : r.base.canal = some k) : k ∈ canalKeys rows := by
  unfold canalKeys
  refine (List.perm_insertionSort strAscLe _).mem_iff.mpr ?_
  exact List.mem_dedup.mpr (List.mem_filterMap.mpr ⟨r, hr, hk⟩)

theorem canalEntry_count (rows : List DRow) (k : String) :
    (canalEntry rows k).2.2
      = List.countP (fun r => r.base.nome.isSome && (r.base.canal == some k)) rows := by
  show List.countP _ (List.filter _ rows) = _
  rw [List.countP_filter]

theorem sumCounts_canalConv (rows : List DRow) :
    sumCounts (canalConv rows)
      = ((canalKeys rows).map (fun k => (canalEntry rows k).2.2)).sum := by
  unfold sumCounts canalConv
  have hperm := List.perm_insertionSort descMeanLe ((canalKeys rows).map (canalEntry rows))
  calc (List.map (fun e => e.2.2)
          (List.insertionSort descMeanLe ((canalKeys rows).map (canalEntry rows)))).sum
      = (List.map (fun e => e.2.2) ((canalKeys rows).map (canalEntry rows))).sum :=
        (hperm.map (fun e => e.2.2)).sum_eq
    _ = ((canalKeys rows).map (fun k => (canalEntry rows k).2.2)).sum := by
        rw [List.map_map]
        rfl

/-- C10 amended: a record with an undefined channel is in no group, and the
per-group counts, being pandas counts of the non-missing partner names, sum
to the number of records with both a defined channel and a defined name; in
particular, when every record has a name, they sum to the number of records
with a defined channel, not to the total dataset size. -/
theorem C10_group_counts (rows : List DRow) :
    sumCounts (canalConv rows)
      = List.countP (fun r => r.base.canal.isSome && r.base.nome.isSome) rows ∧
    ((∀ r ∈ rows, r.base.nome.isSome) →
      sumCounts (canalConv rows) = List.countP (fun r => r.base.canal.isSome) rows) := by
  have hmain : sumCounts (canalConv rows)
      = List.countP (fun r => r.base.nome.isSome && r.base.canal.isSome) rows := by
    rw [sumCounts_canalConv]
    have hk : (canalKeys rows).map (fun k => (canalEntry rows k).2.2)
        = (canalKeys rows).map (fun k =>
            List.countP (fun r => r.base.nome.isSome && (r.base.canal == some k)) rows) := by
      apply List.map_congr_left
      intro k _
      exact canalEntry_count rows k
    rw [hk]
    exact sum_countP_by_keys (fun r => r.base.nome.isSome) (canalKeys rows)
      (canalKeys_nodup rows) rows (fun r hr k hkk => mem_canalKeys hr hkk)
  constructor
  · rw [hmain]
    apply List.countP_congr
    intro r _
    rw [Bool.and_comm]
  · intro hnome
    rw [hmain]
    apply List.countP_congr
    intro r hr
    rw [hnome r hr, Bool.true_and]

/-- C10 counterexample: a one-record dataset whose record has a defined
channel but a missing partner name: the group counts sum to 0, while the
number of records with a defined channel is 1, so the two quantities
differ. -/
theorem C10_group_counts_counterexample :
    sumCounts (canalConv [drNoName]) = 0 ∧
    List.countP (fun r => r.base.canal.isSome) [drNoName] = 1 ∧
    sumCounts (canalConv [drNoName])
      ≠ List.countP (fun r => r.base.canal.isSome) [drNoName] := by
  refine ⟨by decide, by decide, by decide⟩

end Dash
